import Mathlib

/-!
Verification development for the navitime-reachable-api repository.

The Python source is shallowly embedded: floating point coordinates are
modelled as rational numbers, Python lists as Lean lists, Python dicts of
known shape as structures, and raised exceptions as `Except`.  Every
definition mirrors one function (or one cohesive fragment) of the source;
the doc comment of each definition names the file and lines it embeds.
-/

namespace Navitime

/-! ## Geometry: points, convex hull, angular fallback
Embeds `src/api_client.py`, `_generate_polygon_from_points` (lines 364-415)
and `_generate_mock_polygon` (lines 328-362). -/

/-- A bare (latitude, longitude) pair, as consumed by the boundary code.
Python floats are modelled as rationals. -/
abbrev Point : Type := ℚ × ℚ

/-- Orientation test: the cross product of the vectors `a - o` and `b - o`.
Positive means the turn `o → a → b` is counterclockwise, zero means the
three points are collinear. -/
def cross (o a b : Point) : ℚ :=
  (a.1 - o.1) * (b.2 - o.2) - (a.2 - o.2) * (b.1 - o.1)

/-- Every triple of points in the list is collinear. -/
def AllCollinear (pts : List Point) : Prop :=
  ∀ o ∈ pts, ∀ a ∈ pts, ∀ b ∈ pts, cross o a b = 0

instance (pts : List Point) : Decidable (AllCollinear pts) :=
  inferInstanceAs (Decidable (∀ o ∈ pts, ∀ a ∈ pts, ∀ b ∈ pts, cross o a b = 0))

/-- Lexicographic order on points, used to presort the input of the
monotone-chain hull computation. -/
def ptLe (p q : Point) : Prop := p.1 < q.1 ∨ (p.1 = q.1 ∧ p.2 ≤ q.2)

instance : DecidableRel ptLe := fun p q =>
  inferInstanceAs (Decidable (p.1 < q.1 ∨ (p.1 = q.1 ∧ p.2 ≤ q.2)))

/-- Sort the points lexicographically and drop duplicate coordinates. -/
def sortDedup (pts : List Point) : List Point :=
  (List.insertionSort ptLe pts).dedup

/-- One insertion step of the monotone-chain hull: pop the top of the chain
while the turn towards the new point `p` is not strictly counterclockwise,
then push `p`.  The chain is kept in reversed order (most recent first). -/
def chainStep (p : Point) : List Point → List Point
  | b :: a :: rest => if cross a b p ≤ 0 then chainStep p (a :: rest) else p :: b :: a :: rest
  | l => p :: l

/-- One half (lower or upper) of the monotone-chain convex hull of an
already sorted list of points. -/
def halfHull (pts : List Point) : List Point :=
  (pts.foldl (fun acc p => chainStep p acc) []).reverse

/-- The vertices of the convex hull of `pts` via Andrew's monotone chain:
the strict hull vertices in rotational order, without repetition.  A
degenerate input (all points on one line, or fewer than three distinct
points) yields fewer than three vertices. -/
def monotoneChain (pts : List Point) : List Point :=
  (halfHull (sortDedup pts)).dropLast ++ (halfHull (sortDedup pts).reverse).dropLast

/-- The error raised by the external hull library on degenerate input. -/
inductive HullError where
  | qhull
deriving DecidableEq, Repr

/-- Model of `scipy.spatial.ConvexHull` as used at `api_client.py` lines
378-390: on input whose affine hull is less than two-dimensional qhull
raises `QhullError`; otherwise it returns the hull vertices (at least
three of them) in rotational order.  The vertex computation itself is
the monotone chain above. -/
def convexHullOrError (pts : List Point) : Except HullError (List Point) :=
  if (monotoneChain pts).length < 3 then Except.error HullError.qhull
  else Except.ok (monotoneChain pts)

/-- Close a ring by appending its first point at the end
(`hull_points.append(hull_points[0])`, guarded by non-emptiness). -/
def closeRing : List Point → List Point
  | [] => []
  | a :: t => (a :: t) ++ [a]

/-- Mean latitude and mean longitude of a point list
(`api_client.py` lines 401-402). -/
def centroid (pts : List Point) : Point :=
  ((pts.map Prod.fst).sum / (pts.length : ℚ), (pts.map Prod.snd).sum / (pts.length : ℚ))

/-- Which of the four angular regions of `atan2 y x` the vector `(x, y)`
falls in, in increasing order of angle over the range `(-pi, pi]`:
`0` for `y < 0` (negative angles), `1` for angle zero (`y = 0, 0 ≤ x`;
`atan2 0 0 = 0` in Python), `2` for `0 < y`, and `3` for angle pi
(`y = 0, x < 0`). -/
def atanRegion (y x : ℚ) : ℕ :=
  if y < 0 then 0
  else if y = 0 ∧ 0 ≤ x then 1
  else if 0 < y then 2
  else 3

/-- Exact comparison of the `atan2`-style angles (relative to center `c`)
used as the sort key at `api_client.py` lines 406-410: the source computes
`math.atan2(point[1] - center_lon, point[0] - center_lat)`.  Two vectors in
the same open half plane compare by their cross product; otherwise the
angular region decides. -/
def angLt (c p q : Point) : Prop :=
  atanRegion (p.2 - c.2) (p.1 - c.1) < atanRegion (q.2 - c.2) (q.1 - c.1) ∨
    (atanRegion (p.2 - c.2) (p.1 - c.1) = atanRegion (q.2 - c.2) (q.1 - c.1) ∧
      (atanRegion (p.2 - c.2) (p.1 - c.1) = 0 ∨ atanRegion (p.2 - c.2) (p.1 - c.1) = 2) ∧
      0 < (p.1 - c.1) * (q.2 - c.2) - (p.2 - c.2) * (q.1 - c.1))

instance (c p q : Point) : Decidable (angLt c p q) :=
  inferInstanceAs (Decidable (_ ∨ _))

/-- Non-strict angular comparison; `List.insertionSort` with this relation
is a stable sort by the angle key, matching Python's stable `sorted`. -/
def angLe (c p q : Point) : Prop := ¬ angLt c q p

instance (c : Point) : DecidableRel (angLe c) := fun p q =>
  inferInstanceAs (Decidable (¬ angLt c q p))

/-- The `ImportError` fallback of `_generate_polygon_from_points`
(lines 398-415): sort the points by angle around their centroid and close
the ring. -/
def angularFallback (pts : List Point) : List Point :=
  closeRing (List.insertionSort (angLe (centroid pts)) pts)

/-- Embedding of `_generate_polygon_from_points` (lines 364-415).
`scipyAvailable` selects between the primary `ConvexHull` branch and the
`except ImportError` fallback; a `QhullError` raised by the library is not
caught by the source and therefore surfaces as `Except.error`. -/
def generatePolygonFromPoints (scipyAvailable : Bool) (points : List Point) :
    Except HullError (List Point) :=
  if points.length < 3 then Except.ok []
  else if scipyAvailable then
    match convexHullOrError points with
    | Except.ok hullPts => Except.ok (closeRing hullPts)
    | Except.error e => Except.error e
  else Except.ok (angularFallback points)

/-- Embedding of `_generate_mock_polygon` (lines 328-362).  The values
`sin((i * 10) * pi / 180)`, `cos((i * 10) * pi / 180)` and
`cos(radians(lat))` have no exact rational model, so they are abstracted
as the parameters `sinDeg`, `cosDeg` and `cosLat`; every other step (the
minutes-to-km conversion, the 36 samples, closing the ring with the first
point) follows the source literally. -/
def generateMockPolygon (sinDeg cosDeg : ℕ → ℚ) (cosLat : ℚ)
    (lat lon : ℚ) (radiusMinutes : ℚ) : List Point :=
  closeRing ((List.range 36).map fun i =>
    (lat + radiusMinutes * 80 / 1000 / 111 * sinDeg i,
     lon + radiusMinutes * 80 / 1000 / (111 * cosLat) * cosDeg i))

/-! ## Node records, parsing and classification
Embeds the response-processing loop of `NavitimeClient.get_reachable_transit`
(`api_client.py` lines 76-116). -/

/-- One processed transit node (the `node_data` dict built at lines
96-104).  `lines` is always set to `[]` by that code path. -/
structure Node where
  name : String
  lat : ℚ
  lon : ℚ
  time : ℕ
  transfers : ℕ
  lines : List String
  nodeId : String
deriving DecidableEq, Repr

/-- The value found under the `"coord"` key of a raw item: either a dict
(whose `"lat"`/`"lon"` entries may each be absent — `dict.get` then
defaults them to `0`), or some non-dict value, which fails the
`isinstance(coord_data, dict)` test. -/
inductive CoordVal where
  | dict (lat? : Option ℚ) (lon? : Option ℚ)
  | nonDict
deriving DecidableEq, Repr

/-- A raw item of the upstream `"items"` array.  `coord?` is `none` when
the `"coord"` key is absent.  The remaining fields model
`item.get("name", "")`, `item.get("time", 0)`, `item.get("transit_count", 0)`
and `item.get("node_id", "")` with their defaults already absorbed. -/
structure RawItem where
  coord? : Option CoordVal
  name : String
  time : ℕ
  transitCount : ℕ
  nodeId : String
deriving DecidableEq, Repr

/-- The bus-stop test of line 108: `"バス" in node_name or "BUS" in
node_name.upper()`.  Python's `in` is substring containment and `upper`
is modelled by `Char.toUpper` (they agree on ASCII, and katakana is fixed
by both). -/
def isBusName (name : String) : Bool :=
  decide ("バス".toList <:+: name.toList) ||
    decide ("BUS".toList <:+: name.toList.map Char.toUpper)

/-- The body of the items loop (lines 82-113) for a single item: `none`
when the record is skipped (no `"coord"` key, or its value is not a dict);
otherwise the constructed node together with its classification
(`true` = bus stop). -/
def parseItem (it : RawItem) : Option (Node × Bool) :=
  match it.coord? with
  | none => none
  | some CoordVal.nonDict => none
  | some (CoordVal.dict lat? lon?) =>
    some ({ name := it.name, lat := lat?.getD 0, lon := lon?.getD 0,
            time := it.time, transfers := it.transitCount,
            lines := [], nodeId := it.nodeId }, isBusName it.name)

/-- The whole items loop (lines 81-113): returns the `stations` list, the
`bus_stops` list and the `coordinates` list, each in input order. -/
def processItems : List RawItem → List Node × List Node × List Point
  | [] => ([], [], [])
  | it :: rest =>
    match parseItem it, processItems rest with
    | none, tail => tail
    | some (n, true), (sts, bss, cds) => (sts, n :: bss, (n.lat, n.lon) :: cds)
    | some (n, false), (sts, bss, cds) => (n :: sts, bss, (n.lat, n.lon) :: cds)

/-! ## Filter Engine
Embeds the transfer/time filtering of `_get_mock_stations_data`
(`api_client.py` lines 314-321) and the transfer filtering plus
time-ascending sort of `DataProcessor._process_stations`
(`data_processor.py` lines 39-88). -/

/-- Transfer-count filter (`api_client.py` lines 315-317 and the
`continue` at `data_processor.py` line 62): applied only when a bound is
given, keeping records with `transfers ≤ k`. -/
def filterByTransfers (k? : Option ℕ) (ns : List Node) : List Node :=
  match k? with
  | some k => ns.filter fun n => n.transfers ≤ k
  | none => ns

/-- Travel-time filter (`api_client.py` lines 320-321): keeps records with
`time ≤ t`. -/
def filterByTime (t : ℕ) (ns : List Node) : List Node :=
  ns.filter fun n => n.time ≤ t

/-- Comparison by travel time, the sort key of
`df.sort_values("所要時間（分）")`. -/
def timeLe (a b : Node) : Prop := a.time ≤ b.time

instance : DecidableRel timeLe := fun a b => Nat.decLe a.time b.time

instance : IsTotal Node timeLe := ⟨fun a b => Nat.le_total a.time b.time⟩

instance : IsTrans Node timeLe := ⟨fun _ _ _ h h' => Nat.le_trans h h'⟩

/-- The deterministic filtering stage of the Filter Engine: the transfer
filter, then the time filter, each applied only when its bound is
given. -/
def filterStage (t? k? : Option ℕ) (ns : List Node) : List Node :=
  match t? with
  | some t => filterByTime t (filterByTransfers k? ns)
  | none => filterByTransfers k? ns

/-- Contract of the time-ascending sort `df.sort_values("所要時間（分）")`
(`data_processor.py` line 86).  Pandas' default quicksort guarantees only
that the result is the input reordered ascending by the key; the relative
order of rows with equal keys is implementation-defined (numpy's introsort
reorders equal keys once 17 or more of them meet a partition step), so the
call is modelled by its contract, as a relation: `out` is a possible
result of sorting `l` by travel time. -/
def IsTimeSortOf (l out : List Node) : Prop :=
  out.Perm l ∧ List.Sorted timeLe out

instance (l out : List Node) : Decidable (IsTimeSortOf l out) :=
  inferInstanceAs (Decidable (_ ∧ _))

/-- A possible run of the Filter Engine of the spec as realized by the
pipeline: the deterministic filters followed by some permitted result of
the time sort. -/
def FilterEngineRun (t? k? : Option ℕ) (ns out : List Node) : Prop :=
  IsTimeSortOf (filterStage t? k? ns) out

instance (t? k? : Option ℕ) (ns out : List Node) :
    Decidable (FilterEngineRun t? k? ns out) :=
  inferInstanceAs (Decidable (IsTimeSortOf _ _))

/-- Seventeen records sharing travel time 5, distinguished by latitude:
the smallest size at which numpy's introsort partitions (rather than
insertion sorts) and so reorders equal keys. -/
def tiedNodes : List Node :=
  (List.range 17).map fun i => ⟨"", i, 0, 5, 0, [], ""⟩

/-- The same seventeen records with the first two swapped: a time-sorted
permutation of `tiedNodes` that differs from the stable input order. -/
def tiedNodesSwapped : List Node :=
  ⟨"", 1, 0, 5, 0, [], ""⟩ :: ⟨"", 0, 0, 5, 0, [], ""⟩ ::
    ((List.range 15).map fun i => ⟨"", i + 2, 0, 5, 0, [], ""⟩)

/-- The combined record predicate of the Filter Engine. -/
def keepNode (t? k? : Option ℕ) (n : Node) : Bool :=
  (match t? with | some t => decide (n.time ≤ t) | none => true) &&
    (match k? with | some k => decide (n.transfers ≤ k) | none => true)

/-! ## DataProcessor output tables
Embeds `_process_stations` (lines 39-88) and `_process_bus_stops`
(lines 90-139) of `data_processor.py`, together with a minimal model of
the pandas `DataFrame` values they build. -/

/-- One output row of `_process_stations` / `_process_bus_stops`. -/
structure OutRow where
  label : String
  lat : ℚ
  lon : ℚ
  kind : String
  linesJoined : String
  time : ℕ
  transfers : ℕ
deriving DecidableEq, Repr

/-- A pandas `DataFrame`, reduced to what the source observes: its column
labels and its rows. -/
structure DataFrame where
  columns : List String
  rows : List OutRow
deriving DecidableEq, Repr

/-- The column schema declared for an empty stations table
(`data_processor.py` lines 55-57). -/
def stationColumns : List String :=
  ["駅名", "緯度", "経度", "種類", "路線", "所要時間（分）", "乗り換え回数"]

/-- The column schema declared for an empty bus-stops table
(`data_processor.py` lines 106-108). -/
def busStopColumns : List String :=
  ["バス停名", "緯度", "経度", "種類", "路線", "所要時間（分）", "乗り換え回数"]

/-- The station row built at lines 72-80; `", ".join(lines)` becomes
`String.intercalate`. -/
def toStationRow (n : Node) : OutRow :=
  { label := n.name, lat := n.lat, lon := n.lon, kind := "駅",
    linesJoined := String.intercalate ", " n.lines,
    time := n.time, transfers := n.transfers }

/-- The bus-stop row built at lines 123-131. -/
def toBusStopRow (n : Node) : OutRow :=
  { label := n.name, lat := n.lat, lon := n.lon, kind := "バス停",
    linesJoined := String.intercalate ", " n.lines,
    time := n.time, transfers := n.transfers }

/-- Model of `pd.DataFrame(records)` for a list of uniform dicts whose
keys are `cols`: pandas takes the columns from the dict keys, and an empty
record list produces a frame with no columns at all. -/
def dataFrameOfRows (cols : List String) (rs : List OutRow) : DataFrame :=
  { columns := if rs.isEmpty then [] else cols, rows := rs }

/-- Comparison of output rows by the travel-time column. -/
def rowTimeLe (a b : OutRow) : Prop := a.time ≤ b.time

instance : DecidableRel rowTimeLe := fun a b => Nat.decLe a.time b.time

instance : IsTotal OutRow rowTimeLe := ⟨fun a b => Nat.le_total a.time b.time⟩

instance : IsTrans OutRow rowTimeLe := ⟨fun _ _ _ h h' => Nat.le_trans h h'⟩

/-- Embedding of `DataProcessor._process_stations` (lines 39-88).  The
`sort_values` call is rendered as an insertion sort on the travel-time
column; pandas leaves the order of tied rows implementation-defined, and
no theorem below depends on the row order of a non-empty table. -/
def processStations (stations : List Node) (k? : Option ℕ) : DataFrame :=
  if stations.isEmpty then { columns := stationColumns, rows := [] }
  else
    let df := dataFrameOfRows stationColumns ((filterByTransfers k? stations).map toStationRow)
    if df.rows.isEmpty then df
    else { columns := df.columns, rows := List.insertionSort rowTimeLe df.rows }

/-- Embedding of `DataProcessor._process_bus_stops` (lines 90-139), with
the same rendering of `sort_values` as in `processStations`. -/
def processBusStops (busStops : List Node) (k? : Option ℕ) : DataFrame :=
  if busStops.isEmpty then { columns := busStopColumns, rows := [] }
  else
    let df := dataFrameOfRows busStopColumns ((filterByTransfers k? busStops).map toBusStopRow)
    if df.rows.isEmpty then df
    else { columns := df.columns, rows := List.insertionSort rowTimeLe df.rows }

/-! ## Duration Bucketer
Embeds `MapVisualizer.time_colors` (lines 27-32) and
`_get_color_by_time` (lines 140-153) of `map_visualizer.py`. -/

/-- A threshold key of `time_colors`: a finite bound in minutes or
`float('inf')`, modelled as `⊤`. -/
abbrev Threshold : Type := WithTop ℚ

/-- The `time_colors` dict (lines 27-32), as its key-value pairs in the
dict's (already key-ascending) order. -/
def timeColors : List (Threshold × String) :=
  [(((10 : ℚ) : Threshold), "#2ECC40"), (((20 : ℚ) : Threshold), "#FFDC00"),
   (((30 : ℚ) : Threshold), "#FF851B"), ((⊤ : Threshold), "#FF4136")]

/-- The color post-processing of line 152:
`color.replace("#", "").lower()`. -/
def pyColorName (c : String) : String :=
  String.mk ((c.toList.filter fun ch => ch != '#').map Char.toLower)

/-- The threshold loop of lines 150-153: return the color of the first
threshold with `time ≤ threshold`, or `"gray"` when none matches. -/
def colorLoop (t : ℚ) : List (Threshold × String) → String
  | [] => "gray"
  | (th, c) :: rest => if (t : Threshold) ≤ th then pyColorName c else colorLoop t rest

/-- Comparison of threshold entries by key, modelling
`sorted(self.time_colors.items())` (dict keys are distinct, so the key
decides the tuple comparison). -/
def thresholdLe (a b : Threshold × String) : Prop := a.1 ≤ b.1

instance : DecidableRel thresholdLe := fun a b =>
  inferInstanceAs (Decidable (a.1 ≤ b.1))

/-- Embedding of `_get_color_by_time` (lines 140-153), generalized over
the threshold table it iterates. -/
def getColorByTime (tcs : List (Threshold × String)) (t : ℚ) : String :=
  colorLoop t (List.insertionSort thresholdLe tcs)

end Navitime

namespace Navitime

/-! ## Lemmas about the Filter Engine -/

/-- The filtering stage is the single combined filter. -/
theorem filterStage_eq (t? k? : Option ℕ) (ns : List Node) :
    filterStage t? k? ns = ns.filter (keepNode t? k?) := by
  cases t? with
  | none =>
    cases k? with
    | none =>
      show ns = ns.filter (keepNode none none)
      symm
      rw [List.filter_eq_self]
      intro a _
      rfl
    | some k =>
      show ns.filter _ = ns.filter (keepNode none (some k))
      apply List.filter_congr
      intro a _
      simp [keepNode]
  | some t =>
    cases k? with
    | none =>
      show (filterByTransfers none ns).filter _ = ns.filter (keepNode (some t) none)
      apply List.filter_congr
      intro a _
      simp [keepNode]
    | some k =>
      show ((ns.filter _).filter _) = ns.filter (keepNode (some t) (some k))
      rw [List.filter_filter]
      apply List.filter_congr
      intro a _
      rfl

/-- C1 (amended): every permitted run of the Filter Engine returns exactly
the subset of input nodes passing the transfer bound (when given) and the
time bound (when given; an absent time bound keeps all nodes): membership
is equivalent to `keepNode`, the output is a permutation of the filtered
input (so no node is duplicated: a duplicate-free input yields a
duplicate-free output), and it is sorted ascending by travel time.  The
relative order of records with equal travel time is implementation-defined
by the underlying sort and is not guaranteed to be the stable input
order. -/
theorem C1_filter_engine_exact (t? k? : Option ℕ) (ns out : List Node)
    (h : FilterEngineRun t? k? ns out) :
    (∀ n, n ∈ out ↔ n ∈ ns ∧ keepNode t? k? n = true) ∧
    out.Perm (ns.filter (keepNode t? k?)) ∧
    List.Sorted timeLe out ∧
    (ns.Nodup → out.Nodup) := by
  obtain ⟨hperm, hsort⟩ := h
  rw [filterStage_eq] at hperm
  refine ⟨?_, hperm, hsort, ?_⟩
  · intro n
    rw [hperm.mem_iff, List.mem_filter]
  · intro hnd
    exact hperm.nodup_iff.mpr (hnd.filter _)

/-- Witness for C1 at a concrete permitted run: two nodes, bounds
`maxTravelTime = 10` and `maxTransferCount = 1`; the output is a
permutation of the combined filter of the input. -/
theorem C1_filter_engine_exact_witness :
    ([⟨"A", 1, 2, 5, 0, [], ""⟩] : List Node).Perm
      (([⟨"A", 1, 2, 5, 0, [], ""⟩, ⟨"B", 3, 4, 2, 3, [], ""⟩] : List Node).filter
        (keepNode (some 10) (some 1))) :=
  (C1_filter_engine_exact (some 10) (some 1)
    [⟨"A", 1, 2, 5, 0, [], ""⟩, ⟨"B", 3, 4, 2, 3, [], ""⟩]
    [⟨"A", 1, 2, 5, 0, [], ""⟩] (by decide)).2.1

/-- Counterexample to C1 as stated: on seventeen records with equal travel
time — the size at which the underlying quicksort demonstrably reorders
equal keys — the sort contract admits a run whose output swaps two tied
records, so the output is not in the stable input order the claim
demands. -/
theorem C1_counterexample :
    FilterEngineRun none none tiedNodes tiedNodesSwapped ∧
    tiedNodesSwapped ≠ tiedNodes := by
  refine ⟨⟨?_, ?_⟩, ?_⟩
  · with_unfolding_all exact of_decide_eq_true rfl
  · with_unfolding_all exact of_decide_eq_true rfl
  · with_unfolding_all exact of_decide_eq_true rfl

/-- Two mutually permuted time-sorted collections with duplicate-free
travel times are equal. -/
theorem sorted_perm_eq_of_nodup_times :
    ∀ l₁ l₂ : List Node, l₁.Perm l₂ → List.Sorted timeLe l₁ →
      List.Sorted timeLe l₂ → (l₂.map Node.time).Nodup → l₁ = l₂ := by
  intro l₁
  induction l₁ with
  | nil =>
    intro l₂ hperm _ _ _
    exact (hperm.symm.eq_nil).symm
  | cons a t₁ ih =>
    intro l₂ hperm hs1 hs2 hnd
    cases l₂ with
    | nil => exact absurd hperm.eq_nil (List.cons_ne_nil a t₁)
    | cons b t₂ =>
      have hab : a = b := by
        by_contra hne
        have hat2 : a ∈ t₂ := by
          have ha := hperm.mem_iff.mp (List.mem_cons_self a t₁)
          rcases List.mem_cons.mp ha with h | h
          · exact absurd h hne
          · exact h
        have hbt1 : b ∈ t₁ := by
          have hb := hperm.mem_iff.mpr (List.mem_cons_self b t₂)
          rcases List.mem_cons.mp hb with h | h
          · exact absurd h.symm hne
          · exact h
        have h1 : a.time ≤ b.time := (List.sorted_cons.mp hs1).1 b hbt1
        have h2 : b.time ≤ a.time := (List.sorted_cons.mp hs2).1 a hat2
        have heq : a.time = b.time := Nat.le_antisymm h1 h2
        have hmem : b.time ∈ t₂.map Node.time :=
          List.mem_map.mpr ⟨a, hat2, heq⟩
        have hnd2 : (b.time :: t₂.map Node.time).Nodup := by simpa using hnd
        exact (List.nodup_cons.mp hnd2).1 hmem
      subst hab
      have hnd2 : (t₂.map Node.time).Nodup := by
        have hc : (a.time :: t₂.map Node.time).Nodup := by simpa using hnd
        exact (List.nodup_cons.mp hc).2
      rw [ih t₂ hperm.cons_inv (List.sorted_cons.mp hs1).2
        (List.sorted_cons.mp hs2).2 hnd2]

/-- C8 (amended): re-filtering a Filter Engine output keeps every record
(the filter stage is the identity on it) and the collection itself is a
permitted result of the re-run, so the Filter Engine is idempotent up to
the implementation-defined order of tied records: every permitted re-run
result is a time-sorted permutation of the collection, and is literally
the same collection whenever no two records share a travel time. -/
theorem C8_filter_engine_idempotent (t? k? : Option ℕ) (ns out out2 : List Node)
    (h1 : FilterEngineRun t? k? ns out) (h2 : FilterEngineRun t? k? out out2) :
    out.filter (keepNode t? k?) = out ∧
    FilterEngineRun t? k? out out ∧
    out2.Perm out ∧ List.Sorted timeLe out2 ∧
    ((out.map Node.time).Nodup → out2 = out) := by
  obtain ⟨hp1, hs1⟩ := h1
  obtain ⟨hp2, hs2⟩ := h2
  rw [filterStage_eq] at hp1 hp2
  have hself : out.filter (keepNode t? k?) = out := by
    apply List.filter_eq_self.mpr
    intro a ha
    exact List.of_mem_filter (hp1.mem_iff.mp ha)
  have hperm2 : out2.Perm out := by
    rw [hself] at hp2
    exact hp2
  have hrun : FilterEngineRun t? k? out out := by
    constructor
    · rw [filterStage_eq, hself]
    · exact hs1
  refine ⟨hself, hrun, hperm2, hs2, ?_⟩
  intro hnd
  exact sorted_perm_eq_of_nodup_times out2 out hperm2 hs2 hs1 hnd

/-- Witness for C8: on two records with distinct travel times, the sorted
output is itself a permitted result of re-running the engine. -/
theorem C8_filter_engine_idempotent_witness :
    FilterEngineRun none none
      [⟨"B", 3, 4, 2, 3, [], ""⟩, ⟨"A", 1, 2, 5, 0, [], ""⟩]
      [⟨"B", 3, 4, 2, 3, [], ""⟩, ⟨"A", 1, 2, 5, 0, [], ""⟩] :=
  (C8_filter_engine_idempotent none none
    [⟨"A", 1, 2, 5, 0, [], ""⟩, ⟨"B", 3, 4, 2, 3, [], ""⟩]
    [⟨"B", 3, 4, 2, 3, [], ""⟩, ⟨"A", 1, 2, 5, 0, [], ""⟩]
    [⟨"B", 3, 4, 2, 3, [], ""⟩, ⟨"A", 1, 2, 5, 0, [], ""⟩]
    (by decide) (by decide)).2.1

/-- Counterexample to C8 as stated: seventeen tied records are already a
sorted output of the Filter Engine, yet the sort contract permits a
re-run that swaps two tied records, returning a different collection
element for element. -/
theorem C8_counterexample :
    FilterEngineRun none none tiedNodes tiedNodes ∧
    FilterEngineRun none none tiedNodes tiedNodesSwapped ∧
    tiedNodesSwapped ≠ tiedNodes := by
  refine ⟨⟨?_, ?_⟩, ⟨?_, ?_⟩, ?_⟩
  · with_unfolding_all exact of_decide_eq_true rfl
  · with_unfolding_all exact of_decide_eq_true rfl
  · with_unfolding_all exact of_decide_eq_true rfl
  · with_unfolding_all exact of_decide_eq_true rfl
  · with_unfolding_all exact of_decide_eq_true rfl

end Navitime

namespace Navitime

/-! ## Lemmas about the Boundary Builder -/

/-- Closing a non-empty ring repeats the head at the end. -/
theorem closeRing_spec (a : Point) (t : List Point) :
    (closeRing (a :: t)).head? = (closeRing (a :: t)).getLast? ∧
    (closeRing (a :: t)).length = t.length + 2 ∧
    closeRing (a :: t) ≠ [] := by
  refine ⟨?_, by simp [closeRing], by simp [closeRing]⟩
  show (((a :: t) ++ [a]) : List Point).head? = ((a :: t) ++ [a]).getLast?
  rw [List.getLast?_concat]
  rfl

theorem chainStep_nil (p : Point) : chainStep p [] = [p] := rfl

theorem chainStep_one (p b : Point) : chainStep p [b] = [p, b] := rfl

theorem chainStep_two (p b a : Point) (h : cross a b p ≤ 0) :
    chainStep p [b, a] = [p, a] := by
  show (if cross a b p ≤ 0 then chainStep p [a] else p :: b :: a :: []) = [p, a]
  rw [if_pos h]
  rfl

/-- On an all-collinear point set, the hull chain never grows beyond two
vertices. -/
theorem foldl_chain_short (pts : List Point) (hcol : AllCollinear pts) :
    ∀ s acc : List Point, (∀ x ∈ s, x ∈ pts) → (∀ x ∈ acc, x ∈ pts) →
      acc.length ≤ 2 →
      (List.foldl (fun acc p => chainStep p acc) acc s).length ≤ 2 ∧
      ∀ x ∈ List.foldl (fun acc p => chainStep p acc) acc s, x ∈ pts := by
  intro s
  induction s with
  | nil =>
    intro acc _ hacc hlen
    exact ⟨hlen, hacc⟩
  | cons p s ih =>
    intro acc hs hacc hlen
    rw [List.foldl_cons]
    have hp : p ∈ pts := hs p (List.mem_cons_self _ _)
    have hs2 : ∀ x ∈ s, x ∈ pts := fun x hx => hs x (List.mem_cons_of_mem _ hx)
    have hstep : (chainStep p acc).length ≤ 2 ∧ ∀ x ∈ chainStep p acc, x ∈ pts := by
      rcases acc with _ | ⟨b, _ | ⟨a, _ | ⟨c, rest⟩⟩⟩
      · rw [chainStep_nil]
        refine ⟨by simp, ?_⟩
        intro x hx
        rw [List.mem_singleton] at hx
        exact hx ▸ hp
      · rw [chainStep_one]
        refine ⟨by simp, ?_⟩
        intro x hx
        rcases List.mem_cons.mp hx with rfl | hx
        · exact hp
        · exact hacc x hx
      · have ha : a ∈ pts := hacc a (by simp)
        have hb : b ∈ pts := hacc b (by simp)
        rw [chainStep_two p b a (le_of_eq (hcol a ha b hb p hp))]
        refine ⟨by simp, ?_⟩
        intro x hx
        rcases List.mem_cons.mp hx with rfl | hx
        · exact hp
        · rw [List.mem_singleton] at hx
          exact hx ▸ ha
      · exfalso
        simp at hlen
    exact ih (chainStep p acc) hs2 hstep.2 hstep.1

theorem mem_sortDedup {pts : List Point} {x : Point} (hx : x ∈ sortDedup pts) :
    x ∈ pts := by
  rw [sortDedup, List.mem_dedup, List.mem_insertionSort] at hx
  exact hx

/-- On an all-collinear input the monotone chain produces fewer than three
hull vertices, so the modelled library raises. -/
theorem monotoneChain_collinear_short (pts : List Point) (hcol : AllCollinear pts) :
    (monotoneChain pts).length < 3 := by
  have h1 : (halfHull (sortDedup pts)).length ≤ 2 := by
    rw [halfHull, List.length_reverse]
    exact (foldl_chain_short pts hcol (sortDedup pts) []
      (fun x hx => mem_sortDedup hx) (by intro x hx; cases hx) (by simp)).1
  have h2 : (halfHull (sortDedup pts).reverse).length ≤ 2 := by
    rw [halfHull, List.length_reverse]
    exact (foldl_chain_short pts hcol (sortDedup pts).reverse []
      (fun x hx => mem_sortDedup (List.mem_reverse.mp hx))
      (by intro x hx; cases hx) (by simp)).1
  rw [monotoneChain, List.length_append, List.length_dropLast, List.length_dropLast]
  omega

end Navitime

namespace Navitime

theorem closeRing_of_length_pos {l : List Point} (h : 1 ≤ l.length) :
    (closeRing l).head? = (closeRing l).getLast? ∧
    (closeRing l).length = l.length + 1 ∧ closeRing l ≠ [] := by
  cases l with
  | nil => simp at h
  | cons a t =>
    obtain ⟨h1, h2, h3⟩ := closeRing_spec a t
    refine ⟨h1, ?_, h3⟩
    rw [h2]
    simp

/-- C5: every successfully returned polygon of the Boundary Builder is
either empty or explicitly closed with at least four points, and the
synthetic circle generator always returns a closed 37-point ring. -/
theorem C5_polygon_closure :
    (∀ (avail : Bool) (pts out : List Point),
      generatePolygonFromPoints avail pts = Except.ok out →
      out = [] ∨ (out.head? = out.getLast? ∧ 4 ≤ out.length)) ∧
    ∀ (sinDeg cosDeg : ℕ → ℚ) (cosLat lat lon r : ℚ),
      generateMockPolygon sinDeg cosDeg cosLat lat lon r ≠ [] ∧
      (generateMockPolygon sinDeg cosDeg cosLat lat lon r).head? =
        (generateMockPolygon sinDeg cosDeg cosLat lat lon r).getLast? ∧
      4 ≤ (generateMockPolygon sinDeg cosDeg cosLat lat lon r).length := by
  constructor
  · intro avail pts out hok
    by_cases hlen : pts.length < 3
    · rw [generatePolygonFromPoints, if_pos hlen] at hok
      injection hok with h
      exact Or.inl h.symm
    · rw [generatePolygonFromPoints, if_neg hlen] at hok
      right
      cases avail with
      | false =>
        rw [if_neg (by simp)] at hok
        injection hok with h
        subst h
        rw [angularFallback]
        obtain ⟨h1, h2, _⟩ := closeRing_of_length_pos
          (l := List.insertionSort (angLe (centroid pts)) pts)
          (by rw [List.length_insertionSort]; omega)
        refine ⟨h1, ?_⟩
        rw [h2, List.length_insertionSort]
        omega
      | true =>
        rw [if_pos rfl] at hok
        cases hch : convexHullOrError pts with
        | error e =>
          rw [hch] at hok
          cases hok
        | ok hl =>
          rw [hch] at hok
          injection hok with h2
          rw [convexHullOrError] at hch
          split_ifs at hch with hh
          injection hch with h3
          subst h3
          subst h2
          rw [Nat.not_lt] at hh
          obtain ⟨hc1, hc2, _⟩ := closeRing_of_length_pos
            (l := monotoneChain pts) (by omega)
          refine ⟨hc1, ?_⟩
          rw [hc2]
          omega
  · intro sinDeg cosDeg cosLat lat lon r
    rw [generateMockPolygon]
    obtain ⟨h1, h2, h3⟩ := closeRing_of_length_pos
      (l := (List.range 36).map fun i =>
        ((lat + r * 80 / 1000 / 111 * sinDeg i : ℚ),
         (lon + r * 80 / 1000 / (111 * cosLat) * cosDeg i : ℚ)))
      (by simp)
    refine ⟨h3, h1, ?_⟩
    rw [h2]
    simp

end Navitime

namespace Navitime

/-- Equality of modelled call results is decidable, so that concrete runs
of the Boundary Builder can be checked by evaluation. -/
instance : DecidableEq (Except HullError (List Point)) := fun a b =>
  match a, b with
  | Except.ok x, Except.ok y => decidable_of_iff (x = y) (by simp)
  | Except.error e, Except.error f => decidable_of_iff (e = f) (by simp)
  | Except.ok _, Except.error _ => isFalse (by simp)
  | Except.error _, Except.ok _ => isFalse (by simp)

/-- Witness for C5: the fallback branch on a concrete triangle returns the
explicitly closed four-point ring. -/
theorem C5_polygon_closure_witness :
    ([((0 : ℚ), (0 : ℚ)), (1, 0), (0, 1), (0, 0)] : List Point) = [] ∨
      (([((0 : ℚ), (0 : ℚ)), (1, 0), (0, 1), (0, 0)] : List Point).head? =
          ([((0 : ℚ), (0 : ℚ)), (1, 0), (0, 1), (0, 0)] : List Point).getLast? ∧
        4 ≤ ([((0 : ℚ), (0 : ℚ)), (1, 0), (0, 1), (0, 0)] : List Point).length) :=
  C5_polygon_closure.1 false [((0 : ℚ), (0 : ℚ)), (1, 0), (0, 1)] _
    (by with_unfolding_all exact of_decide_eq_true rfl)

/-- C3 (amended): the Boundary Builder's emptiness check is on the length
of the raw point list: any list of fewer than three elements yields the
empty polygon without an error, whichever branch is active. -/
theorem C3_short_input_empty (avail : Bool) (pts : List Point)
    (h : pts.length < 3) : generatePolygonFromPoints avail pts = Except.ok [] := by
  rw [generatePolygonFromPoints, if_pos h]

/-- Witness for C3 at a concrete two-element list. -/
theorem C3_short_input_empty_witness :
    generatePolygonFromPoints true [((0 : ℚ), (0 : ℚ)), (5, 5)] = Except.ok [] :=
  C3_short_input_empty true [((0 : ℚ), (0 : ℚ)), (5, 5)] (by decide)

/-- Counterexample to C3 as stated: a three-element list with only two
distinct points is not returned as an empty polygon — the hull branch
raises the library's degeneracy error and the fallback branch returns a
non-empty degenerate ring. -/
theorem C3_counterexample :
    generatePolygonFromPoints true [((0 : ℚ), (0 : ℚ)), (0, 0), (1, 1)] =
        Except.error HullError.qhull ∧
      generatePolygonFromPoints false [((0 : ℚ), (0 : ℚ)), (0, 0), (1, 1)] =
        Except.ok [(0, 0), (0, 0), (1, 1), (0, 0)] := by
  constructor
  · with_unfolding_all exact of_decide_eq_true rfl
  · with_unfolding_all exact of_decide_eq_true rfl

/-- C2 (amended): on an all-collinear input of at least three points the
Boundary Builder terminates normally via the angular-sort fallback only
when the hull library is unavailable; when the library is available the
degenerate input makes it raise, and the error propagates. -/
theorem C2_collinear_fallback (pts : List Point) (hlen : 3 ≤ pts.length)
    (hcol : AllCollinear pts) :
    (generatePolygonFromPoints false pts = Except.ok (angularFallback pts) ∧
      angularFallback pts ≠ []) ∧
    generatePolygonFromPoints true pts = Except.error HullError.qhull := by
  have hnlt : ¬ pts.length < 3 := by omega
  refine ⟨⟨?_, ?_⟩, ?_⟩
  · rw [generatePolygonFromPoints, if_neg hnlt, if_neg (by simp)]
  · rw [angularFallback]
    exact (closeRing_of_length_pos (l := List.insertionSort (angLe (centroid pts)) pts)
      (by rw [List.length_insertionSort]; omega)).2.2
  · rw [generatePolygonFromPoints, if_neg hnlt, if_pos rfl, convexHullOrError,
      if_pos (monotoneChain_collinear_short pts hcol)]

/-- Witness for C2 at three concrete collinear points. -/
theorem C2_collinear_fallback_witness :
    (generatePolygonFromPoints false [((0 : ℚ), (0 : ℚ)), (1, 1), (2, 2)] =
        Except.ok (angularFallback [((0 : ℚ), (0 : ℚ)), (1, 1), (2, 2)]) ∧
      angularFallback [((0 : ℚ), (0 : ℚ)), (1, 1), (2, 2)] ≠ []) ∧
    generatePolygonFromPoints true [((0 : ℚ), (0 : ℚ)), (1, 1), (2, 2)] =
      Except.error HullError.qhull :=
  C2_collinear_fallback [((0 : ℚ), (0 : ℚ)), (1, 1), (2, 2)] (by decide)
    (by with_unfolding_all exact of_decide_eq_true rfl)

/-- Counterexample to C2 as stated: with the hull library available, the
collinear input ((0,0), (1,1), (2,2)) makes the Boundary Builder raise
instead of falling back to the angular sort. -/
theorem C2_counterexample :
    generatePolygonFromPoints true [((0 : ℚ), (0 : ℚ)), (1, 1), (2, 2)] =
      Except.error HullError.qhull := by
  with_unfolding_all exact of_decide_eq_true rfl

end Navitime

namespace Navitime

/-! ## Lemmas about record parsing and classification -/

/-- C4 (amended): a record whose coordinate key is absent, or whose
coordinate value is not a dict, is rejected and contributes nothing to
any output list; a record whose coordinate is a dict is always accepted,
with any missing latitude or longitude entry silently defaulted to 0. -/
theorem C4_coordinate_rejection :
    (∀ it : RawItem, it.coord? = none ∨ it.coord? = some CoordVal.nonDict →
      parseItem it = none ∧
      ∀ rest, processItems (it :: rest) = processItems rest) ∧
    ∀ (it : RawItem) (lat? lon? : Option ℚ),
      it.coord? = some (CoordVal.dict lat? lon?) →
      parseItem it =
        some (⟨it.name, lat?.getD 0, lon?.getD 0, it.time, it.transitCount,
          [], it.nodeId⟩, isBusName it.name) := by
  constructor
  · intro it h
    have hnone : parseItem it = none := by
      rcases h with h | h <;> rw [parseItem, h]
    refine ⟨hnone, ?_⟩
    intro rest
    rw [processItems, hnone]
  · intro it lat? lon? h
    rw [parseItem, h]

/-- Witness for C4 (amended) at a concrete record without a coordinate
key. -/
theorem C4_coordinate_rejection_witness :
    parseItem ⟨none, "X", 3, 0, "n1"⟩ = none ∧
    processItems [(⟨none, "X", 3, 0, "n1"⟩ : RawItem)] = processItems [] :=
  ⟨(C4_coordinate_rejection.1 _ (Or.inl rfl)).1,
    (C4_coordinate_rejection.1 _ (Or.inl rfl)).2 []⟩

/-- Counterexample to C4 as stated: a record whose coordinate is a dict
containing neither a latitude nor a longitude entry — not a pair of
numbers — is accepted, and the constructed node carries the silently
defaulted coordinates (0, 0). -/
theorem C4_counterexample :
    parseItem ⟨some (CoordVal.dict none none), "X", 3, 0, "n1"⟩ =
      some (⟨"X", 0, 0, 3, 0, [], "n1"⟩, false) ∧
    (processItems [⟨some (CoordVal.dict none none), "X", 3, 0, "n1"⟩]).1 =
      [(⟨"X", 0, 0, 3, 0, [], "n1"⟩ : Node)] := by
  constructor <;> rfl

/-- Containment of the word "bus" in any mixture of upper and lower case,
stated structurally: some three consecutive characters of the string are
a b, a u and an s, each in either case. -/
def ContainsBusCI (s : String) : Prop :=
  ∃ l₁ l₂ : List Char, ∃ c1 c2 c3 : Char,
    s.toList = l₁ ++ c1 :: c2 :: c3 :: l₂ ∧
    (c1 = 'b' ∨ c1 = 'B') ∧ (c2 = 'u' ∨ c2 = 'U') ∧ (c3 = 's' ∨ c3 = 'S')

theorem toNat_ofNat_valid {n : ℕ} (h : n.isValidChar) :
    (Char.ofNat n).toNat = n := by
  rw [Char.ofNat, dif_pos h]
  rfl

theorem chr_toNat_inj {c d : Char} (h : c.toNat = d.toNat) : c = d := by
  apply Char.eq_of_val_eq
  exact UInt32.toNat.inj h

/-- Inversion of `Char.toUpper` at an ASCII capital letter `u` whose lower
case form is `lo`. -/
theorem toUpper_eq_upper_iff {c u lo : Char} (hu : 65 ≤ u.toNat)
    (hu2 : u.toNat ≤ 90) (hlo : lo.toNat = u.toNat + 32) :
    c.toUpper = u ↔ (c = lo ∨ c = u) := by
  unfold Char.toUpper
  by_cases h : c.toNat ≥ 97 ∧ c.toNat ≤ 122
  · rw [if_pos h]
    have hv : (c.toNat - 32).isValidChar := Or.inl (by omega)
    constructor
    · intro he
      left
      have h2 := congrArg Char.toNat he
      rw [toNat_ofNat_valid hv] at h2
      apply chr_toNat_inj
      omega
    · rintro (rfl | rfl)
      · apply chr_toNat_inj
        rw [toNat_ofNat_valid hv]
        omega
      · omega
  · rw [if_neg h]
    constructor
    · intro he
      right
      exact he
    · rintro (rfl | rfl)
      · omega
      · rfl

/-- The upper-cased substring test of the source is exactly
case-insensitive containment of "bus". -/
theorem busUpper_iff_containsBusCI (s : String) :
    "BUS".toList <:+: s.toList.map Char.toUpper ↔ ContainsBusCI s := by
  constructor
  · rintro ⟨t₁, t₂, heq⟩
    rw [show ("BUS".toList : List Char) = ['B', 'U', 'S'] from rfl] at heq
    have heq2 : s.toList.map Char.toUpper = t₁ ++ ['B', 'U', 'S'] ++ t₂ := heq.symm
    rw [List.append_assoc, List.map_eq_append_iff] at heq2
    obtain ⟨l₁, m, hs, hm1, hm2⟩ := heq2
    simp only [List.cons_append, List.nil_append] at hm2
    rw [List.map_eq_cons_iff] at hm2
    obtain ⟨c1, m1, rfl, hc1, hm3⟩ := hm2
    rw [List.map_eq_cons_iff] at hm3
    obtain ⟨c2, m2, rfl, hc2, hm4⟩ := hm3
    rw [List.map_eq_cons_iff] at hm4
    obtain ⟨c3, m3, rfl, hc3, _⟩ := hm4
    refine ⟨l₁, m3, c1, c2, c3, by simpa using hs, ?_, ?_, ?_⟩
    · exact (toUpper_eq_upper_iff (by decide) (by decide) (by decide)).mp hc1
    · exact (toUpper_eq_upper_iff (by decide) (by decide) (by decide)).mp hc2
    · exact (toUpper_eq_upper_iff (by decide) (by decide) (by decide)).mp hc3
  · rintro ⟨l₁, l₂, c1, c2, c3, hs, hc1, hc2, hc3⟩
    refine ⟨l₁.map Char.toUpper, l₂.map Char.toUpper, ?_⟩
    rw [hs]
    have e1 : c1.toUpper = 'B' := by rcases hc1 with rfl | rfl <;> decide
    have e2 : c2.toUpper = 'U' := by rcases hc2 with rfl | rfl <;> decide
    have e3 : c3.toUpper = 'S' := by rcases hc3 with rfl | rfl <;> decide
    simp [e1, e2, e3]

/-- C7: for every accepted record (coordinate present as a dict),
classification is total and deterministic: the record yields exactly one
node, that node is classified as a bus stop exactly when its name
contains the katakana marker or the word "bus" case-insensitively, and
it is appended to exactly one of the two output lists accordingly. -/
theorem C7_classification_total :
    (∀ s : String, isBusName s = true ↔
      ("バス".toList <:+: s.toList ∨ ContainsBusCI s)) ∧
    ∀ (it : RawItem) (lat? lon? : Option ℚ),
      it.coord? = some (CoordVal.dict lat? lon?) →
      ∃ n : Node, parseItem it = some (n, isBusName it.name) ∧
        ∀ rest sts bss cds, processItems rest = (sts, bss, cds) →
          processItems (it :: rest) =
            if isBusName it.name then (sts, n :: bss, (n.lat, n.lon) :: cds)
            else (n :: sts, bss, (n.lat, n.lon) :: cds) := by
  constructor
  · intro s
    rw [isBusName, Bool.or_eq_true, decide_eq_true_iff, decide_eq_true_iff,
      busUpper_iff_containsBusCI]
  · intro it lat? lon? h
    have hp : parseItem it =
        some (⟨it.name, lat?.getD 0, lon?.getD 0, it.time, it.transitCount,
          [], it.nodeId⟩, isBusName it.name) := by
      rw [parseItem, h]
    refine ⟨_, hp, ?_⟩
    intro rest sts bss cds hrest
    cases hb : isBusName it.name <;>
      simp [processItems, hp, hrest, hb]

/-- Witness for C7 at a concrete bus-stop record: the record lands in the
bus-stop list and nowhere else. -/
theorem C7_classification_total_witness :
    processItems [⟨some (CoordVal.dict (some 35) (some 139)), "茅場町バス停", 2, 0, "b1"⟩] =
      ([], [⟨"茅場町バス停", 35, 139, 2, 0, [], "b1"⟩], [((35 : ℚ), (139 : ℚ))]) := by
  obtain ⟨n, hp, hstep⟩ := C7_classification_total.2
    ⟨some (CoordVal.dict (some 35) (some 139)), "茅場町バス停", 2, 0, "b1"⟩
    (some 35) (some 139) rfl
  have hn : n = ⟨"茅場町バス停", 35, 139, 2, 0, [], "b1"⟩ := by
    have h2 : some (n, isBusName "茅場町バス停") =
        some ((⟨"茅場町バス停", 35, 139, 2, 0, [], "b1"⟩ : Node), isBusName "茅場町バス停") := by
      rw [← hp]
      rfl
    injection h2 with h3
    exact congrArg Prod.fst h3
  have hstep2 := hstep [] [] [] [] rfl
  rw [hstep2, if_pos (by decide : isBusName "茅場町バス停" = true), hn]

end Navitime

namespace Navitime

/-! ## Lemmas about the output tables -/

/-- C9: a non-empty record list whose records are all excluded by the
transfer bound produces a table with zero rows and zero columns, whereas
the empty input list yields a zero-row table that still carries the seven
declared columns; the declared schema is therefore not preserved for
non-empty, fully filtered inputs. -/
theorem C9_filtered_out_schema :
    (∀ (sts : List Node) (k : ℕ), sts ≠ [] → (∀ s ∈ sts, k < s.transfers) →
      processStations sts (some k) = ⟨[], []⟩ ∧
      processBusStops sts (some k) = ⟨[], []⟩) ∧
    (∀ k? : Option ℕ,
      processStations [] k? = ⟨stationColumns, []⟩ ∧
      processBusStops [] k? = ⟨busStopColumns, []⟩) ∧
    stationColumns.length = 7 ∧ busStopColumns.length = 7 := by
  refine ⟨?_, fun k? => ⟨rfl, rfl⟩, rfl, rfl⟩
  intro sts k hne hall
  have hs : sts.isEmpty = false := by
    cases sts with
    | nil => exact absurd rfl hne
    | cons a l => rfl
  have hfil : filterByTransfers (some k) sts = [] := by
    rw [filterByTransfers, List.filter_eq_nil_iff]
    intro a ha
    have := hall a ha
    simp only [decide_eq_true_eq]
    omega
  constructor
  · rw [processStations]
    simp [hs, hfil, dataFrameOfRows]
  · rw [processBusStops]
    simp [hs, hfil, dataFrameOfRows]

/-- Witness for C9: one station record with two transfers against a
transfer bound of one. -/
theorem C9_filtered_out_schema_witness :
    processStations [⟨"A", 1, 2, 5, 2, [], ""⟩] (some 1) = ⟨[], []⟩ ∧
    processBusStops [⟨"A", 1, 2, 5, 2, [], ""⟩] (some 1) = ⟨[], []⟩ :=
  C9_filtered_out_schema.1 [⟨"A", 1, 2, 5, 2, [], ""⟩] 1 (by simp)
    (by intro s hs; rw [List.mem_singleton] at hs; rw [hs]; exact Nat.lt_of_sub_eq_succ rfl)

/-! ## Lemmas about the Duration Bucketer -/

/-- The threshold loop returns the color of the minimal satisfied bound of
a strictly ascending table, whenever some bound is satisfied. -/
theorem colorLoop_min (t : ℚ) :
    ∀ tcs : List (Threshold × String),
      tcs.Pairwise (fun a b => a.1 < b.1) →
      (∃ q ∈ tcs, (t : Threshold) ≤ q.1) →
      ∃ p ∈ tcs, (t : Threshold) ≤ p.1 ∧ colorLoop t tcs = pyColorName p.2 ∧
        ∀ q ∈ tcs, (t : Threshold) ≤ q.1 → p.1 ≤ q.1 := by
  intro tcs
  induction tcs with
  | nil =>
    rintro _ ⟨q, hq, _⟩
    cases hq
  | cons hd rest ih =>
    intro hpw hex
    obtain ⟨th, c⟩ := hd
    by_cases hh : (t : Threshold) ≤ th
    · refine ⟨(th, c), by simp, hh, ?_, ?_⟩
      · rw [colorLoop, if_pos hh]
      · intro q hq hqt
        rcases List.mem_cons.mp hq with rfl | hq
        · exact le_refl _
        · exact le_of_lt ((List.pairwise_cons.mp hpw).1 q hq)
    · obtain ⟨q, hq, hqt⟩ := hex
      rcases List.mem_cons.mp hq with rfl | hq
      · exact absurd hqt hh
      obtain ⟨p, hp, hpt, hcl, hmin⟩ := ih (List.pairwise_cons.mp hpw).2 ⟨q, hq, hqt⟩
      refine ⟨p, List.mem_cons_of_mem _ hp, hpt, ?_, ?_⟩
      · rw [colorLoop, if_neg hh]
        exact hcl
      · intro q2 hq2 hq2t
        rcases List.mem_cons.mp hq2 with rfl | hq2
        · exact absurd hq2t hh
        · exact hmin q2 hq2 hq2t

/-- C6: for every duration and every strictly ascending threshold table
with an unbounded catch-all tier, the Duration Bucketer returns the tier
of the smallest upper bound that is ≥ the duration (bound check
`duration ≤ threshold`); on the configured table, 10 maps to the first
tier, 11 to the second and 31 to the unbounded tier. -/
theorem C6_duration_bucketer :
    (∀ (tcs : List (Threshold × String)) (t : ℚ),
      tcs.Pairwise (fun a b => a.1 < b.1) →
      (∃ c : String, ((⊤ : Threshold), c) ∈ tcs) →
      ∃ p ∈ tcs, (t : Threshold) ≤ p.1 ∧
        getColorByTime tcs t = pyColorName p.2 ∧
        ∀ q ∈ tcs, (t : Threshold) ≤ q.1 → p.1 ≤ q.1) ∧
    getColorByTime timeColors 10 = "2ecc40" ∧
    getColorByTime timeColors 11 = "ffdc00" ∧
    getColorByTime timeColors 31 = "ff4136" := by
  refine ⟨?_, ?_, ?_, ?_⟩
  · intro tcs t hpw hex
    have hsorted : List.Sorted thresholdLe tcs := hpw.imp fun h => le_of_lt h
    rw [getColorByTime, hsorted.insertionSort_eq]
    apply colorLoop_min t tcs hpw
    obtain ⟨c, hc⟩ := hex
    exact ⟨(⊤, c), hc, le_top⟩
  · with_unfolding_all exact of_decide_eq_true rfl
  · with_unfolding_all exact of_decide_eq_true rfl
  · with_unfolding_all exact of_decide_eq_true rfl

/-- Witness for C6: the general bound characterization applied to the
configured table at duration 5. -/
theorem C6_duration_bucketer_witness :
    ∃ p ∈ timeColors, ((5 : ℚ) : Threshold) ≤ p.1 ∧
      getColorByTime timeColors 5 = pyColorName p.2 ∧
      ∀ q ∈ timeColors, ((5 : ℚ) : Threshold) ≤ q.1 → p.1 ≤ q.1 :=
  C6_duration_bucketer.1 timeColors 5
    (by with_unfolding_all exact of_decide_eq_true rfl)
    ⟨"#FF4136", by with_unfolding_all exact of_decide_eq_true rfl⟩

/-- C10: on the configured table the unbounded catch-all satisfies the
bound check for every duration, so the trailing "gray" default branch is
unreachable: the result is always one of the four configured colors. -/
theorem C10_gray_unreachable (t : ℚ) :
    getColorByTime timeColors t ∈ ["2ecc40", "ffdc00", "ff851b", "ff4136"] ∧
    getColorByTime timeColors t ≠ "gray" := by
  have hsort : List.insertionSort thresholdLe timeColors = timeColors := by
    with_unfolding_all exact of_decide_eq_true rfl
  rw [getColorByTime, hsort, timeColors]
  rw [colorLoop]
  split_ifs with h1
  · exact ⟨by decide, by decide⟩
  rw [colorLoop]
  split_ifs with h2
  · exact ⟨by decide, by decide⟩
  rw [colorLoop]
  split_ifs with h3
  · exact ⟨by decide, by decide⟩
  rw [colorLoop]
  split_ifs with h4
  · exact ⟨by decide, by decide⟩
  · exact absurd le_top h4

end Navitime
